import Mathlib

/-!
Shallow embedding of the core logic of the mobile movie app:
the TMDB catalog client (fetchMovies), the Appwrite search-telemetry
upsert (updateSearchCount), the trending query (getTrendingMovies),
and the useFetch async state hook — together with theorems about them.

Remote effects are made explicit: the telemetry store is a list of
documents, fallibility of each store call is an oracle of Booleans,
and an HTTP response is a record of its status and (pre-parsed) body.
-/

/-- A catalog item as used by the telemetry code: `movie.id`,
`movie.title`, `movie.poster_path` (nullable in the TMDB schema). -/
structure Movie where
  id : Int
  title : String
  poster_path : Option String
deriving DecidableEq

/-- A document of the Appwrite collection recording searches.
`docId` is the store-generated `$id`; `count` is `Option Nat` because a
document written by other means may lack the field (the code guards with
`existingMovie.count || 0`). -/
structure SearchRecord where
  docId : Nat
  searchTerm : String
  movie_id : Int
  title : String
  count : Option Nat
  poster_url : Option String
deriving DecidableEq

/-- The effective count of a record, as the code reads it:
`existingMovie.count || 0` maps a missing (and a zero) count to 0. -/
def recCount (r : SearchRecord) : Nat :=
  r.count.getD 0

/-- The store's `listDocuments(…, [Query.equal("searchTerm", query)])`:
all documents whose `searchTerm` equals the query, in store order. -/
def listByTerm (db : List SearchRecord) (term : String) : List SearchRecord :=
  db.filter (fun r => r.searchTerm == term)

/-- The store's `updateDocument(…, docId, {count: newCount})`: a partial
update writing only the `count` field of the document with that `$id`. -/
def updateCountDoc (db : List SearchRecord) (docId : Nat) (newCount : Nat) :
    List SearchRecord :=
  db.map (fun r => if r.docId == docId then { r with count := some newCount } else r)

/-- A fresh document identifier, modelling `ID.unique()`: strictly larger
than every identifier already in the store, hence not present in it. -/
def freshDocId (db : List SearchRecord) : Nat :=
  db.foldr (fun r m => max r.docId m) 0 + 1

/-- The fixed TMDB image base URL used when building `poster_url`. -/
def tmdbImageBase : String := "https://image.tmdb.org/t/p/w500"

/-- The `poster_url` of a newly created record:
`movie.poster_path ? base + movie.poster_path : null`. JavaScript
truthiness makes both a null and an empty-string `poster_path` fall to
the `null` branch. -/
def newPosterUrl (movie : Movie) : Option String :=
  match movie.poster_path with
  | some p => if p == "" then none else some (tmdbImageBase ++ p)
  | none => none

/-- The field map passed to `createDocument` for a first-time search. -/
def createdRecord (db : List SearchRecord) (query : String) (movie : Movie) :
    SearchRecord :=
  { docId := freshDocId db
    searchTerm := query
    movie_id := movie.id
    title := movie.title
    count := some 1
    poster_url := newPosterUrl movie }

/-- Which of the three store calls of the upsert succeed on this run. -/
structure StoreOracle where
  listOk : Bool
  updateOk : Bool
  createOk : Bool
deriving DecidableEq

/-- The `try` block of `updateSearchCount`: list the documents matching
the term; if any exists, update the first one's `count` to
`(count || 0) + 1`; otherwise create a new record. Each store call may
fail per the oracle, in which case the error propagates out of the block
(no document was written, so the store is unchanged at that point). -/
def updateSearchCountTry (o : StoreOracle) (query : String) (movie : Movie)
    (db : List SearchRecord) : Except String (List SearchRecord) :=
  if o.listOk = false then Except.error "listDocuments failed"
  else
    match listByTerm db query with
    | existing :: _ =>
      if o.updateOk = false then Except.error "updateDocument failed"
      else Except.ok (updateCountDoc db existing.docId (recCount existing + 1))
    | [] =>
      if o.createOk = false then Except.error "createDocument failed"
      else Except.ok (db ++ [createdRecord db query movie])

/-- `updateSearchCount`: the `try` block wrapped in the `catch` that
logs the error and returns normally, leaving the store as it was. -/
def updateSearchCount (o : StoreOracle) (query : String) (movie : Movie)
    (db : List SearchRecord) : List SearchRecord :=
  match updateSearchCountTry o query movie db with
  | Except.ok db2 => db2
  | Except.error _ => db

/-- Stable insertion of a record into a list kept in descending order of
effective count (part of the model of the store's `Query.orderDesc`). -/
def insertDesc (r : SearchRecord) : List SearchRecord → List SearchRecord
  | [] => [r]
  | x :: xs => if recCount x < recCount r then r :: x :: xs else x :: insertDesc r xs

/-- The store's `Query.orderDesc("count")`: documents sorted by count
descending (stable, so ties keep store order, which callers must not
rely on). -/
def sortByCountDesc : List SearchRecord → List SearchRecord
  | [] => []
  | x :: xs => insertDesc x (sortByCountDesc xs)

/-- `getTrendingMovies`: queries the store with `Query.limit(5)` and
`Query.orderDesc("count")` and returns the documents; on a store
failure it catches, logs, and returns `undefined` (here `none`). -/
def getTrendingMovies (listOk : Bool) (db : List SearchRecord) :
    Option (List SearchRecord) :=
  if listOk then some ((sortByCountDesc db).take 5) else none

/-- Per-term uniqueness invariant of the telemetry store: at most one
SearchRecord per distinct `searchTerm` (case- and whitespace-sensitive,
since `==` on strings is exact). -/
def TermUnique (db : List SearchRecord) : Prop :=
  (db.map SearchRecord.searchTerm).Nodup

/-- Store-level guarantee that document `$id`s are pairwise distinct. -/
def IdUnique (db : List SearchRecord) : Prop :=
  (db.map SearchRecord.docId).Nodup

/-- A well-formed telemetry store: unique terms and unique `$id`s. -/
def WellFormedDB (db : List SearchRecord) : Prop :=
  TermUnique db ∧ IdUnique db

/-- The effective count recorded for a term: the count of its (first)
record, or 0 when the term has no record yet. -/
def countVal (db : List SearchRecord) (t : String) : Nat :=
  match db.find? (fun r => r.searchTerm == t) with
  | some r => recCount r
  | none => 0

/-- An operation of this core touching the telemetry store: an upsert
(`updateSearchCount`) or a trending read (`getTrendingMovies`). -/
inductive CoreOp where
  | record (o : StoreOracle) (query : String) (movie : Movie)
  | trending (listOk : Bool)

/-- The effect of one core operation on the store. A trending read
never writes. -/
def applyOp (db : List SearchRecord) : CoreOp → List SearchRecord
  | CoreOp.record o q m => updateSearchCount o q m db
  | CoreOp.trending _ => db

/-- The store after a sequence of core operations. -/
def runOps (db : List SearchRecord) (ops : List CoreOp) : List SearchRecord :=
  ops.foldl applyOp db

/-- The TMDB API base URL from `TMDB_CONFIG.BASE_URL`. -/
def TMDB_BASE_URL : String := "https://api.themoviedb.org/3"

/-- Uppercase hexadecimal digit for a value below 16. -/
def hexDigitChar (n : Nat) : Char :=
  if n < 10 then Char.ofNat (48 + n) else Char.ofNat (55 + n)

/-- UTF-8 encoding of one character's code point, as byte values. -/
def utf8Bytes (c : Char) : List Nat :=
  let n := c.toNat
  if n < 128 then [n]
  else if n < 2048 then [192 + n / 64, 128 + n % 64]
  else if n < 65536 then [224 + n / 4096, 128 + (n / 64) % 64, 128 + n % 64]
  else [240 + n / 262144, 128 + (n / 4096) % 64, 128 + (n / 64) % 64, 128 + n % 64]

/-- Characters `encodeURIComponent` leaves unescaped:
`A-Z a-z 0-9 - _ . ! ~ * ' ( )`. -/
def isUriUnreserved (c : Char) : Bool :=
  c.isAlphanum || c ∈ ['-', '_', '.', '!', '~', '*', Char.ofNat 39, '(', ')']

/-- Percent-encoding of a single character per `encodeURIComponent`. -/
def encodeChar (c : Char) : List Char :=
  if isUriUnreserved c then [c]
  else (utf8Bytes c).flatMap (fun b => ['%', hexDigitChar (b / 16), hexDigitChar (b % 16)])

/-- JavaScript's `encodeURIComponent`. -/
def encodeURIComponent (s : String) : String :=
  String.mk ((s.data.map encodeChar).flatten)

/-- The endpoint built by `fetchMovies`: JavaScript truthiness of
`query` sends the empty string to the discovery endpoint and any
non-empty string to the search endpoint with the encoded query. -/
def movieEndpoint (query : String) : String :=
  if query == "" then TMDB_BASE_URL ++ "/discover/movie?sort_by=popularity.desc"
  else TMDB_BASE_URL ++ "/search/movie?query=" ++ encodeURIComponent query

/-- The JSON value obtained from `response.json()`, restricted to what
`data.results` distinguishes: JSON `null` (property access throws), a
value with a `results` field holding the item list, a value without a
`results` field (access yields `undefined`), and a non-object primitive
(access also yields `undefined`). -/
inductive JsonBody where
  | jnull
  | jobj (results : Option (List Movie))
  | jprim
deriving DecidableEq

/-- An HTTP response as `fetchMovies` observes it: `ok`, `statusText`,
and the body, where `none` means `response.json()` rejects because the
body is not valid JSON. -/
structure FetchResponse where
  ok : Bool
  statusText : String
  body : Option JsonBody
deriving DecidableEq

/-- How a `fetchMovies` call can fail: the explicit throw on a
non-success status, the `SyntaxError` from `response.json()`, or the
`TypeError` from reading `.results` of `null`. -/
inductive FetchError where
  | statusError (message : String)
  | jsonDecodeError
  | nullAccessError
deriving DecidableEq

/-- `fetchMovies` after the transport returned `resp`: throw on
non-success status with the status text in the message, parse the body,
and return `data.results` (which is `undefined`, here `none`, when the
JSON has no `results` field). -/
def fetchMovies (query : String) (resp : FetchResponse) :
    Except FetchError (Option (List Movie)) :=
  if resp.ok = false then
    Except.error (FetchError.statusError ("Failed to fetch movies: " ++ resp.statusText))
  else
    match resp.body with
    | none => Except.error FetchError.jsonDecodeError
    | some JsonBody.jnull => Except.error FetchError.nullAccessError
    | some (JsonBody.jobj results) => Except.ok results
    | some JsonBody.jprim => Except.ok none

/-- A value thrown by a producer, as `useFetch` classifies it:
an `Error` instance carrying a message, or any other value (which
carries no standard message). -/
inductive ThrownValue where
  | errorInstance (message : String)
  | nonErrorValue
deriving DecidableEq

/-- The message stored by the catch branch of `fetchData`:
`err instanceof Error ? err : new Error("An unknown error occurred")`. -/
def normalizeCaught : ThrownValue → String
  | ThrownValue.errorInstance m => m
  | ThrownValue.nonErrorValue => "An unknown error occurred"

/-- The state tracked by `useFetch`: `{data, loading, error}` with the
stored error represented by its message. -/
structure FetchState (α : Type) where
  data : Option α
  loading : Bool
  error : Option String
deriving DecidableEq

/-- The initial hook state: `data = null`, `loading = false`,
`error = null`. -/
def initFetchState (α : Type) : FetchState α :=
  { data := none, loading := false, error := none }

/-- One completed run of `fetchData` whose producer call finishes with
`run`: set `loading`, clear `error`, then either store the result or
store the normalized caught error, and finally clear `loading`. -/
def fetchData {α : Type} (run : Except ThrownValue α) (s : FetchState α) :
    FetchState α :=
  match run with
  | Except.ok v => { data := some v, loading := false, error := none }
  | Except.error e => { data := s.data, loading := false, error := some (normalizeCaught e) }

/-- `reset`: clears data, error and loading regardless of prior state. -/
def resetState {α : Type} (_ : FetchState α) : FetchState α :=
  initFetchState α

/-- The state after mounting `useFetch(fetchFunction, autoFetch)` and
letting the (at most one) auto-started `fetchData` run to completion. -/
def useFetchMount {α : Type} (run : Except ThrownValue α) (autoFetch : Bool) :
    FetchState α :=
  if autoFetch then fetchData run (initFetchState α) else initFetchState α

/-- Does `pat` occur as a contiguous segment of `l`? -/
def containsSeg (pat : List Char) : List Char → Bool
  | [] => pat.isEmpty
  | c :: cs => pat.isPrefixOf (c :: cs) || containsSeg pat cs

/-! Helper lemmas about the upsert. -/

/-- Filtering by term commutes with a count-only update, because the
update never touches `searchTerm`. -/
lemma listByTerm_updateCountDoc (db : List SearchRecord) (d n : Nat) (t : String) :
    listByTerm (updateCountDoc db d n) t =
      (listByTerm db t).map
        (fun r => if r.docId == d then { r with count := some n } else r) := by
  unfold listByTerm updateCountDoc
  rw [List.filter_map]
  congr 1
  apply List.filter_congr
  intro r _
  by_cases h : r.docId = d <;> simp [h]

/-- Run characterization, found case: when the listing succeeds and
finds a first record `r` and the update succeeds, `updateSearchCount`
is exactly the count update of `r`'s document. -/
lemma updateSearchCount_run_update (o : StoreOracle) (q : String) (m : Movie)
    (db : List SearchRecord) (r : SearchRecord) (rest : List SearchRecord)
    (hl : o.listOk = true) (hu : o.updateOk = true)
    (hfound : listByTerm db q = r :: rest) :
    updateSearchCount o q m db = updateCountDoc db r.docId (recCount r + 1) := by
  unfold updateSearchCount updateSearchCountTry
  rw [hfound]
  simp [hl, hu]

/-- Run characterization, not-found case: when the listing succeeds and
finds nothing and the creation succeeds, `updateSearchCount` appends the
newly created record. -/
lemma updateSearchCount_run_create (o : StoreOracle) (q : String) (m : Movie)
    (db : List SearchRecord)
    (hl : o.listOk = true) (hc : o.createOk = true)
    (hnone : listByTerm db q = []) :
    updateSearchCount o q m db = db ++ [createdRecord db q m] := by
  unfold updateSearchCount updateSearchCountTry
  rw [hnone]
  simp [hl, hc]

/-- C1: for a term that already has exactly one SearchRecord `r`, a
sequential successful `updateSearchCount` leaves exactly one
SearchRecord for that term, with count `recCount r + 1`; since
`recCount` reads a present count `c` as `c` and a missing count as `0`,
the new count is `c + 1` in the former case and `1` in the latter. -/
theorem updateSearchCount_existing_increments (o : StoreOracle) (q : String)
    (m : Movie) (db : List SearchRecord) (r : SearchRecord)
    (hl : o.listOk = true) (hu : o.updateOk = true)
    (hfound : listByTerm db q = [r]) :
    listByTerm (updateSearchCount o q m db) q =
      [{ r with count := some (recCount r + 1) }] ∧
    (∀ c : Nat, r.count = some c → recCount r + 1 = c + 1) ∧
    (r.count = none → recCount r + 1 = 1) := by
  refine ⟨?_, ?_, ?_⟩
  · rw [updateSearchCount_run_update o q m db r [] hl hu hfound,
      listByTerm_updateCountDoc, hfound]
    simp
  · intro c hc
    simp [recCount, hc]
  · intro hc
    simp [recCount, hc]

/-- Witness for C1 at the spec's Avatar scenario: a second search for
"Avatar" turns the single record of count 1 into one of count 2. -/
theorem updateSearchCount_existing_increments_w :
    listByTerm
      (updateSearchCount ⟨true, true, true⟩ "Avatar" ⟨19995, "Avatar", none⟩
        [⟨7, "Avatar", 19995, "Avatar", some 1, none⟩]) "Avatar" =
      [⟨7, "Avatar", 19995, "Avatar", some 2, none⟩] := by
  have h := updateSearchCount_existing_increments ⟨true, true, true⟩ "Avatar"
    ⟨19995, "Avatar", none⟩ [⟨7, "Avatar", 19995, "Avatar", some 1, none⟩]
    ⟨7, "Avatar", 19995, "Avatar", some 1, none⟩ rfl rfl (by decide)
  simpa using h.1

/-- C2 counterexample: the claim reads "posterUrl equal to the image
base URL concatenated with posterPath when posterPath is present".  For
a movie whose `poster_path` is present but empty, the code's JavaScript
truthiness test sends it to the `null` branch, so the created record
carries no poster URL instead of the concatenation. -/
theorem updateSearchCount_empty_poster_path_cex :
    (updateSearchCount ⟨true, true, true⟩ "t" ⟨1, "A", some ""⟩ []).map
        SearchRecord.poster_url = [none] ∧
    ([none] : List (Option String)) ≠ [some (tmdbImageBase ++ "")] := by
  constructor
  · rfl
  · decide

/-- C2 (amended): for a term with no prior SearchRecord, a successful
`updateSearchCount` creates exactly one SearchRecord with count 1,
the movie's id and title, and a poster URL that is the image base URL
concatenated with the poster path when the path is present and
non-empty, and absent when the path is absent or empty. -/
theorem updateSearchCount_creates_record (o : StoreOracle) (q : String)
    (m : Movie) (db : List SearchRecord)
    (hl : o.listOk = true) (hc : o.createOk = true)
    (hnone : listByTerm db q = []) :
    listByTerm (updateSearchCount o q m db) q = [createdRecord db q m] ∧
    (createdRecord db q m).searchTerm = q ∧
    (createdRecord db q m).count = some 1 ∧
    (createdRecord db q m).movie_id = m.id ∧
    (createdRecord db q m).title = m.title ∧
    (∀ p, m.poster_path = some p → p ≠ "" →
      (createdRecord db q m).poster_url = some (tmdbImageBase ++ p)) ∧
    (m.poster_path = some "" → (createdRecord db q m).poster_url = none) ∧
    (m.poster_path = none → (createdRecord db q m).poster_url = none) := by
  refine ⟨?_, rfl, rfl, rfl, rfl, ?_, ?_, ?_⟩
  · rw [updateSearchCount_run_create o q m db hl hc hnone]
    unfold listByTerm at hnone ⊢
    rw [List.filter_append, hnone]
    simp [createdRecord]
  · intro p hp hne
    simp [createdRecord, newPosterUrl, hp, hne]
  · intro hp
    simp [createdRecord, newPosterUrl, hp]
  · intro hp
    simp [createdRecord, newPosterUrl, hp]

/-- Witness for C2 (amended): a first search for "Avatar" on an empty
store creates the single expected record. -/
theorem updateSearchCount_creates_record_w :
    listByTerm (updateSearchCount ⟨true, true, true⟩ "Avatar"
        ⟨19995, "Avatar", some "/p.jpg"⟩ []) "Avatar" =
      [⟨1, "Avatar", 19995, "Avatar", some 1, some (tmdbImageBase ++ "/p.jpg")⟩] := by
  have h := updateSearchCount_creates_record ⟨true, true, true⟩ "Avatar"
    ⟨19995, "Avatar", some "/p.jpg"⟩ [] rfl rfl (by decide)
  have hp := h.2.2.2.2.2.1 "/p.jpg" rfl (by decide)
  rw [h.1]
  simp [createdRecord, freshDocId, newPosterUrl]

/-- C5: telemetry and trending store failures never escape: whenever the
try block of `updateSearchCount` fails, the call still returns normally
with the store unchanged, and whenever the trending listing fails,
`getTrendingMovies` returns `none` rather than an exception. -/
theorem storeFailures_never_escape :
    (∀ (o : StoreOracle) (q : String) (m : Movie) (db : List SearchRecord)
      (e : String), updateSearchCountTry o q m db = Except.error e →
        updateSearchCount o q m db = db) ∧
    (∀ db : List SearchRecord, getTrendingMovies false db = none) := by
  constructor
  · intro o q m db e h
    unfold updateSearchCount
    rw [h]
  · intro db
    rfl

/-- Witness for C5: a run whose `listDocuments` fails leaves the store
untouched and returns; a failed trending listing yields `none`. -/
theorem storeFailures_never_escape_w :
    updateSearchCount ⟨false, true, true⟩ "t" ⟨1, "A", none⟩ [] = [] ∧
    getTrendingMovies false [] = none :=
  ⟨storeFailures_never_escape.1 ⟨false, true, true⟩ "t" ⟨1, "A", none⟩ []
      "listDocuments failed" rfl,
    storeFailures_never_escape.2 []⟩

/-- The head of a successful term listing is a record of the store. -/
lemma head_listByTerm_mem (db : List SearchRecord) (q : String)
    (r : SearchRecord) (rest : List SearchRecord)
    (hfound : listByTerm db q = r :: rest) : r ∈ db := by
  have : r ∈ listByTerm db q := by
    rw [hfound]
    exact List.mem_cons_self r rest
  exact List.mem_of_mem_filter this

/-- C10: when the upsert finds an existing record, the persisted update
writes only the `count` field: at every position of the store, the
record's `searchTerm`, `movie_id`, `title` and `poster_url` are
unchanged, and every record other than the found one is unchanged
entirely. -/
theorem updateSearchCount_frame (o : StoreOracle) (q : String) (m : Movie)
    (db : List SearchRecord) (r : SearchRecord) (rest : List SearchRecord)
    (hl : o.listOk = true) (hu : o.updateOk = true)
    (hfound : listByTerm db q = r :: rest) (hid : IdUnique db) :
    (updateSearchCount o q m db).length = db.length ∧
    ∀ (i : Nat) (x y : SearchRecord), db[i]? = some x →
      (updateSearchCount o q m db)[i]? = some y →
      y.searchTerm = x.searchTerm ∧ y.movie_id = x.movie_id ∧
      y.title = x.title ∧ y.poster_url = x.poster_url ∧
      (x ≠ r → y = x) := by
  have hrun := updateSearchCount_run_update o q m db r rest hl hu hfound
  have hrm : r ∈ db := head_listByTerm_mem db q r rest hfound
  constructor
  · rw [hrun]
    unfold updateCountDoc
    exact List.length_map db _
  · intro i x y hx hy
    rw [hrun] at hy
    unfold updateCountDoc at hy
    rw [List.getElem?_map, hx] at hy
    have hxmem : x ∈ db := by
      have hlt : i < db.length := by
        by_contra hge
        rw [List.getElem?_eq_none (Nat.le_of_not_lt hge)] at hx
        exact Option.noConfusion hx
      have : db[i] = x := by
        rw [List.getElem?_eq_getElem hlt] at hx
        exact Option.some.inj hx
      rw [← this]
      exact List.getElem_mem hlt
    have hyx : (if x.docId == r.docId
        then { x with count := some (recCount r + 1) } else x) = y := by
      simpa using hy
    by_cases hd : x.docId = r.docId
    · have heq : x = r := List.inj_on_of_nodup_map hid hxmem hrm hd
      rw [← hyx]
      refine ⟨?_, ?_, ?_, ?_, ?_⟩
      · simp [hd]
      · simp [hd]
      · simp [hd]
      · simp [hd]
      · intro hne
        exact absurd heq hne
    · rw [← hyx]
      refine ⟨?_, ?_, ?_, ?_, ?_⟩ <;> simp [hd]

/-- Witness for C10: updating the count of the record for "a" leaves
the other record of the store untouched. -/
theorem updateSearchCount_frame_w :
    (updateSearchCount ⟨true, true, true⟩ "a" ⟨1, "A", none⟩
      [⟨1, "a", 1, "A", some 3, none⟩, ⟨2, "b", 2, "B", some 5, none⟩]).length =
      ([⟨1, "a", 1, "A", some 3, none⟩, ⟨2, "b", 2, "B", some 5, none⟩] :
        List SearchRecord).length ∧
    (⟨2, "b", 2, "B", some 5, none⟩ : SearchRecord) ≠ ⟨1, "a", 1, "A", some 3, none⟩ := by
  have h := updateSearchCount_frame ⟨true, true, true⟩ "a" ⟨1, "A", none⟩
    [⟨1, "a", 1, "A", some 3, none⟩, ⟨2, "b", 2, "B", some 5, none⟩]
    ⟨1, "a", 1, "A", some 3, none⟩ [] rfl rfl (by decide)
    (by unfold IdUnique; decide)
  exact ⟨h.1, by decide⟩

/-! Helper lemmas for the store invariant and count monotonicity. -/

/-- A count-only update does not change the list of search terms. -/
lemma updateCountDoc_map_searchTerm (db : List SearchRecord) (d n : Nat) :
    (updateCountDoc db d n).map SearchRecord.searchTerm =
      db.map SearchRecord.searchTerm := by
  induction db with
  | nil => rfl
  | cons x xs ih =>
    unfold updateCountDoc at ih ⊢
    have h1 : (if x.docId == d then { x with count := some n } else x).searchTerm =
        x.searchTerm := by
      by_cases h : x.docId = d <;> simp [h]
    simp only [List.map_cons, h1, ih]

/-- A count-only update does not change the list of document ids. -/
lemma updateCountDoc_map_docId (db : List SearchRecord) (d n : Nat) :
    (updateCountDoc db d n).map SearchRecord.docId = db.map SearchRecord.docId := by
  induction db with
  | nil => rfl
  | cons x xs ih =>
    unfold updateCountDoc at ih ⊢
    have h1 : (if x.docId == d then { x with count := some n } else x).docId =
        x.docId := by
      by_cases h : x.docId = d <;> simp [h]
    simp only [List.map_cons, h1, ih]

/-- Finding by term commutes with a count-only update. -/
lemma find?_updateCountDoc (db : List SearchRecord) (d n : Nat) (t : String) :
    (updateCountDoc db d n).find? (fun r => r.searchTerm == t) =
      (db.find? (fun r => r.searchTerm == t)).map
        (fun r => if r.docId == d then { r with count := some n } else r) := by
  unfold updateCountDoc
  have hp : ((fun r : SearchRecord => r.searchTerm == t) ∘
      (fun r => if r.docId == d then { r with count := some n } else r)) =
      (fun r : SearchRecord => r.searchTerm == t) := by
    funext r
    by_cases h : r.docId = d <;> simp [Function.comp, h]
  rw [List.find?_map, hp]

/-- Every document id in the store is bounded by the running maximum. -/
lemma docId_le_fold (db : List SearchRecord) :
    ∀ r ∈ db, r.docId ≤ db.foldr (fun r m => max r.docId m) 0 := by
  induction db with
  | nil => intro r hr; cases hr
  | cons x xs ih =>
    intro r hr
    rcases List.mem_cons.mp hr with h | h
    · rw [h]
      exact Nat.le_max_left _ _
    · exact Nat.le_trans (ih r h) (Nat.le_max_right _ _)

/-- The fresh id generated for a create is not an id of the store. -/
lemma freshDocId_not_mem (db : List SearchRecord) :
    ∀ r ∈ db, r.docId ≠ freshDocId db := by
  intro r hr
  have := docId_le_fold db r hr
  unfold freshDocId
  omega

/-- A term with no record matches no record of the store. -/
lemma listByTerm_nil_forall (db : List SearchRecord) (q : String)
    (hnone : listByTerm db q = []) : ∀ r ∈ db, r.searchTerm ≠ q := by
  intro r hr heq
  have : r ∈ listByTerm db q := by
    unfold listByTerm
    exact List.mem_filter.mpr ⟨hr, by simp [heq]⟩
  rw [hnone] at this
  cases this

/-- One upsert preserves well-formedness of the store. -/
lemma updateSearchCount_wf_step (o : StoreOracle) (q : String) (m : Movie)
    (db : List SearchRecord) (h : WellFormedDB db) :
    WellFormedDB (updateSearchCount o q m db) := by
  by_cases hl : o.listOk = false
  · unfold updateSearchCount updateSearchCountTry
    simp [hl]
    exact h
  · have hl' : o.listOk = true := by
      cases hv : o.listOk
      · exact absurd hv hl
      · rfl
    cases hfind : listByTerm db q with
    | cons r rest =>
      by_cases hu : o.updateOk = false
      · unfold updateSearchCount updateSearchCountTry
        rw [hfind]
        simp [hl, hu]
        exact h
      · have hu' : o.updateOk = true := by
          cases hv : o.updateOk
          · exact absurd hv hu
          · rfl
        rw [updateSearchCount_run_update o q m db r rest hl' hu' hfind]
        unfold WellFormedDB TermUnique IdUnique at h ⊢
        rw [updateCountDoc_map_searchTerm, updateCountDoc_map_docId]
        exact h
    | nil =>
      by_cases hc : o.createOk = false
      · unfold updateSearchCount updateSearchCountTry
        rw [hfind]
        simp [hl, hc]
        exact h
      · have hc' : o.createOk = true := by
          cases hv : o.createOk
          · exact absurd hv hc
          · rfl
        rw [updateSearchCount_run_create o q m db hl' hc' hfind]
        obtain ⟨ht, hi⟩ := h
        constructor
        · unfold TermUnique at ht ⊢
          rw [List.map_append]
          apply List.Nodup.append ht (by simp [createdRecord])
          intro s hs hs2
          simp [createdRecord] at hs2
          rcases List.mem_map.mp hs with ⟨r, hr, hrs⟩
          exact listByTerm_nil_forall db q hfind r hr (by rw [hrs, hs2])
        · unfold IdUnique at hi ⊢
          rw [List.map_append]
          apply List.Nodup.append hi (by simp [createdRecord])
          intro s hs hs2
          simp [createdRecord] at hs2
          rcases List.mem_map.mp hs with ⟨r, hr, hrs⟩
          exact freshDocId_not_mem db r hr (by rw [← hrs] at hs2; exact hs2)

/-- One upsert never decreases the recorded count of any term
(document ids must be unique, as the store guarantees). -/
lemma updateSearchCount_mono_step (o : StoreOracle) (q : String) (m : Movie)
    (db : List SearchRecord) (t : String) (hid : IdUnique db) :
    countVal db t ≤ countVal (updateSearchCount o q m db) t := by
  by_cases hl : o.listOk = false
  · unfold updateSearchCount updateSearchCountTry
    simp [hl]
  · have hl' : o.listOk = true := by
      cases hv : o.listOk
      · exact absurd hv hl
      · rfl
    cases hfind : listByTerm db q with
    | cons r rest =>
      by_cases hu : o.updateOk = false
      · unfold updateSearchCount updateSearchCountTry
        rw [hfind]
        simp [hl, hu]
      · have hu' : o.updateOk = true := by
          cases hv : o.updateOk
          · exact absurd hv hu
          · rfl
        rw [updateSearchCount_run_update o q m db r rest hl' hu' hfind]
        have hrm : r ∈ db := head_listByTerm_mem db q r rest hfind
        unfold countVal
        rw [find?_updateCountDoc]
        cases hft : db.find? (fun s => s.searchTerm == t) with
        | none => simp
        | some rt =>
          by_cases hd : rt.docId = r.docId
          · have hrt : rt ∈ db := List.mem_of_find?_eq_some hft
            have heq : rt = r := List.inj_on_of_nodup_map hid hrt hrm hd
            subst heq
            simp [recCount]
          · simp [hd]
    | nil =>
      by_cases hc : o.createOk = false
      · unfold updateSearchCount updateSearchCountTry
        rw [hfind]
        simp [hl, hc]
      · have hc' : o.createOk = true := by
          cases hv : o.createOk
          · exact absurd hv hc
          · rfl
        rw [updateSearchCount_run_create o q m db hl' hc' hfind]
        unfold countVal
        rw [List.find?_append]
        cases hft : db.find? (fun s => s.searchTerm == t) with
        | none => simp
        | some rt => simp

/-- C3: any sequence of this core's operations (upserts and trending
reads) preserves the invariant "at most one SearchRecord per distinct
searchTerm" (together with unique document ids), and the recorded count
of every term never decreases along the sequence. -/
theorem runOps_preserves_invariant (ops : List CoreOp) (db : List SearchRecord)
    (h : WellFormedDB db) :
    WellFormedDB (runOps db ops) ∧
    ∀ t, countVal db t ≤ countVal (runOps db ops) t := by
  induction ops generalizing db with
  | nil => exact ⟨h, fun t => Nat.le_refl _⟩
  | cons op ops ih =>
    have hstep : WellFormedDB (applyOp db op) := by
      cases op with
      | record o q m => exact updateSearchCount_wf_step o q m db h
      | trending _ => exact h
    have hmono : ∀ t, countVal db t ≤ countVal (applyOp db op) t := by
      intro t
      cases op with
      | record o q m => exact updateSearchCount_mono_step o q m db t h.2
      | trending _ => exact Nat.le_refl _
    have hrun : runOps db (op :: ops) = runOps (applyOp db op) ops := rfl
    rw [hrun]
    obtain ⟨h1, h2⟩ := ih (applyOp db op) hstep
    exact ⟨h1, fun t => Nat.le_trans (hmono t) (h2 t)⟩

/-- Witness for C3: two searches for "a" on an initially empty store
keep the store well-formed and do not decrease the count of "a". -/
theorem runOps_preserves_invariant_w :
    WellFormedDB (runOps []
      [CoreOp.record ⟨true, true, true⟩ "a" ⟨1, "A", none⟩,
       CoreOp.record ⟨true, true, true⟩ "a" ⟨1, "A", none⟩,
       CoreOp.trending true]) ∧
    countVal [] "a" ≤ countVal (runOps []
      [CoreOp.record ⟨true, true, true⟩ "a" ⟨1, "A", none⟩,
       CoreOp.record ⟨true, true, true⟩ "a" ⟨1, "A", none⟩,
       CoreOp.trending true]) "a" := by
  have h := runOps_preserves_invariant
    [CoreOp.record ⟨true, true, true⟩ "a" ⟨1, "A", none⟩,
     CoreOp.record ⟨true, true, true⟩ "a" ⟨1, "A", none⟩,
     CoreOp.trending true] []
    ⟨by unfold TermUnique; decide, by unfold IdUnique; decide⟩
  exact ⟨h.1, h.2 "a"⟩

/-! Helper lemmas for the trending order. -/

/-- Membership after an ordered insertion. -/
lemma mem_insertDesc (y r : SearchRecord) (l : List SearchRecord)
    (h : y ∈ insertDesc r l) : y = r ∨ y ∈ l := by
  induction l with
  | nil =>
    unfold insertDesc at h
    rcases List.mem_singleton.mp h with h1
    exact Or.inl h1
  | cons x xs ih =>
    unfold insertDesc at h
    by_cases hc : recCount x < recCount r
    · rw [if_pos hc] at h
      rcases List.mem_cons.mp h with h1 | h1
      · exact Or.inl h1
      · exact Or.inr h1
    · rw [if_neg hc] at h
      rcases List.mem_cons.mp h with h1 | h1
      · exact Or.inr (List.mem_cons.mpr (Or.inl h1))
      · rcases ih h1 with h2 | h2
        · exact Or.inl h2
        · exact Or.inr (List.mem_cons.mpr (Or.inr h2))

/-- Ordered insertion preserves the descending-count order. -/
lemma insertDesc_sorted (r : SearchRecord) (l : List SearchRecord)
    (h : l.Pairwise (fun a b => recCount b ≤ recCount a)) :
    (insertDesc r l).Pairwise (fun a b => recCount b ≤ recCount a) := by
  induction l with
  | nil =>
    unfold insertDesc
    exact List.pairwise_singleton _ _
  | cons x xs ih =>
    rcases List.pairwise_cons.mp h with ⟨hx, hxs⟩
    unfold insertDesc
    by_cases hc : recCount x < recCount r
    · rw [if_pos hc]
      apply List.pairwise_cons.mpr
      refine ⟨?_, h⟩
      intro y hy
      rcases List.mem_cons.mp hy with h1 | h1
      · rw [h1]
        exact Nat.le_of_lt hc
      · exact Nat.le_trans (hx y h1) (Nat.le_of_lt hc)
    · rw [if_neg hc]
      apply List.pairwise_cons.mpr
      refine ⟨?_, ih hxs⟩
      intro y hy
      rcases mem_insertDesc y r xs hy with h1 | h1
      · rw [h1]
        exact Nat.le_of_not_lt hc
      · exact hx y h1

/-- The trending sort produces a descending-count order. -/
lemma sortByCountDesc_sorted (db : List SearchRecord) :
    (sortByCountDesc db).Pairwise (fun a b => recCount b ≤ recCount a) := by
  induction db with
  | nil => exact List.Pairwise.nil
  | cons x xs ih =>
    unfold sortByCountDesc
    exact insertDesc_sorted x (sortByCountDesc xs) ih

/-- C4: whenever `getTrendingMovies` returns a result, it contains at
most 5 entries (the fixed limit the code passes for the defaulted
`limit` parameter) and the entries are ordered by count descending. -/
theorem getTrendingMovies_sorted_limited (ok : Bool) (db res : List SearchRecord)
    (h : getTrendingMovies ok db = some res) :
    res.length ≤ 5 ∧ res.Pairwise (fun a b => recCount b ≤ recCount a) := by
  cases ok with
  | false => exact Option.noConfusion h
  | true =>
    have hres : res = (sortByCountDesc db).take 5 := by
      unfold getTrendingMovies at h
      rw [if_pos rfl] at h
      exact (Option.some.inj h).symm
    constructor
    · rw [hres, List.length_take]
      exact Nat.min_le_left _ _
    · rw [hres]
      exact List.Pairwise.sublist (List.take_sublist 5 _) (sortByCountDesc_sorted db)

/-- Witness for C4 on a concrete three-record store: the result has at
most 5 entries and its counts 3, 2, 1 are descending. -/
theorem getTrendingMovies_sorted_limited_w :
    ([⟨1, "a", 1, "A", some 3, none⟩, ⟨3, "c", 3, "C", some 2, none⟩,
      ⟨2, "b", 2, "B", some 1, none⟩] : List SearchRecord).length ≤ 5 := by
  have h := getTrendingMovies_sorted_limited true
    [⟨1, "a", 1, "A", some 3, none⟩, ⟨2, "b", 2, "B", some 1, none⟩,
     ⟨3, "c", 3, "C", some 2, none⟩]
    [⟨1, "a", 1, "A", some 3, none⟩, ⟨3, "c", 3, "C", some 2, none⟩,
     ⟨2, "b", 2, "B", some 1, none⟩]
    (by decide)
  exact h.1

/-- C6: when the producer of an auto-started `useFetch` fails, the
eventual state has no data, `loading` cleared, and an error whose
message is taken from the thrown value when it is an `Error` instance
and is the fixed fallback "An unknown error occurred" only when the
thrown value carries no message; in particular a rejection with message
"boom" ends in `{data: none, loading: false, error: "boom"}`. -/
theorem useFetch_failure_eventual_state (α : Type) (e : ThrownValue) :
    useFetchMount (Except.error e : Except ThrownValue α) true =
      { data := none, loading := false, error := some (normalizeCaught e) } ∧
    (∀ msg, normalizeCaught (ThrownValue.errorInstance msg) = msg) ∧
    normalizeCaught ThrownValue.nonErrorValue = "An unknown error occurred" ∧
    useFetchMount (Except.error (ThrownValue.errorInstance "boom") :
        Except ThrownValue α) true =
      { data := none, loading := false, error := some "boom" } :=
  ⟨rfl, fun _ => rfl, rfl, rfl⟩

/-- C7 counterexample: a success response whose body is valid JSON but
has no `results` field (so it cannot be decoded into the expected
shape) makes `fetchMovies` return `undefined` silently instead of
failing with a surfaced parse error. -/
theorem fetchMovies_missing_results_cex :
    fetchMovies "a" ⟨true, "OK", some (JsonBody.jobj none)⟩ = Except.ok none ∧
    ∀ e : FetchError,
      fetchMovies "a" ⟨true, "OK", some (JsonBody.jobj none)⟩ ≠ Except.error e := by
  constructor
  · rfl
  · intro e h
    exact Except.noConfusion h

/-- C7 (amended): on a success status, `fetchMovies` surfaces an error
when the body is not decodable as JSON at all or is JSON `null`
(property access throws); but when the body is valid JSON merely
lacking the `results` field, it silently returns `undefined` (`none`)
rather than failing. -/
theorem fetchMovies_decode_surfacing (q : String) (resp : FetchResponse)
    (h : resp.ok = true) :
    (resp.body = none → fetchMovies q resp = Except.error FetchError.jsonDecodeError) ∧
    (resp.body = some JsonBody.jnull →
      fetchMovies q resp = Except.error FetchError.nullAccessError) ∧
    (∀ results, resp.body = some (JsonBody.jobj results) →
      fetchMovies q resp = Except.ok results) ∧
    (resp.body = some JsonBody.jprim → fetchMovies q resp = Except.ok none) := by
  refine ⟨?_, ?_, ?_, ?_⟩
  · intro hb
    simp [fetchMovies, h, hb]
  · intro hb
    simp [fetchMovies, h, hb]
  · intro results hb
    simp [fetchMovies, h, hb]
  · intro hb
    simp [fetchMovies, h, hb]

/-- Witness for C7 (amended): an invalid-JSON body yields the surfaced
decode error. -/
theorem fetchMovies_decode_surfacing_w :
    fetchMovies "a" ⟨true, "OK", none⟩ = Except.error FetchError.jsonDecodeError :=
  (fetchMovies_decode_surfacing "a" ⟨true, "OK", none⟩ rfl).1 rfl

/-- C9: on any non-success transport status, `fetchMovies` fails with
an error whose message carries the response's status description, and
returns no value. -/
theorem fetchMovies_status_error (q : String) (resp : FetchResponse)
    (h : resp.ok = false) :
    fetchMovies q resp =
      Except.error (FetchError.statusError
        ("Failed to fetch movies: " ++ resp.statusText)) ∧
    ∃ pre, "Failed to fetch movies: " ++ resp.statusText = pre ++ resp.statusText := by
  constructor
  · simp [fetchMovies, h]
  · exact ⟨"Failed to fetch movies: ", rfl⟩

/-- Witness for C9: a 404 response produces the throw carrying the
status text. -/
theorem fetchMovies_status_error_w :
    fetchMovies "a" ⟨false, "Not Found", none⟩ =
      Except.error (FetchError.statusError
        ("Failed to fetch movies: " ++ "Not Found")) :=
  (fetchMovies_status_error "a" ⟨false, "Not Found", none⟩ rfl).1

/-- A list is a prefix (in the Boolean sense) of itself followed by
anything. -/
lemma isPrefixOf_append_self (l t : List Char) : l.isPrefixOf (l ++ t) = true := by
  induction l with
  | nil => cases t <;> rfl
  | cons a as ih => simp [List.isPrefixOf, ih]

/-- A pattern occurs in any list built around it. -/
lemma containsSeg_append (pre pat post : List Char) :
    containsSeg pat (pre ++ (pat ++ post)) = true := by
  induction pre with
  | nil =>
    cases pat with
    | nil =>
      cases post with
      | nil => rfl
      | cons c cs => simp [containsSeg, List.isPrefixOf]
    | cons a as =>
      simp [containsSeg, isPrefixOf_append_self]
  | cons c cs ih =>
    simp [containsSeg, ih]

/-- C8: a non-empty query goes to the search endpoint whose URL ends
with the percent-encoded query; the empty query goes to the discovery
endpoint sorted by popularity descending, whose URL contains no
`query=` parameter. -/
theorem movieEndpoint_modes :
    (∀ q : String, q ≠ "" →
      movieEndpoint q =
        TMDB_BASE_URL ++ "/search/movie?query=" ++ encodeURIComponent q ∧
      ∃ pre, movieEndpoint q = pre ++ encodeURIComponent q) ∧
    movieEndpoint "" = TMDB_BASE_URL ++ "/discover/movie?sort_by=popularity.desc" ∧
    ∀ pre post : String, movieEndpoint "" ≠ pre ++ "query=" ++ post := by
  refine ⟨?_, rfl, ?_⟩
  · intro q hq
    constructor
    · simp [movieEndpoint, hq]
    · exact ⟨TMDB_BASE_URL ++ "/search/movie?query=", by simp [movieEndpoint, hq]⟩
  · intro pre post h
    have hd : (movieEndpoint "").data = pre.data ++ ("query=".data ++ post.data) := by
      rw [h]
      simp [String.data_append, List.append_assoc]
    have htrue : containsSeg "query=".data (movieEndpoint "").data = true := by
      rw [hd]
      exact containsSeg_append pre.data "query=".data post.data
    have hfalse : containsSeg "query=".data (movieEndpoint "").data = false := by
      decide
    rw [htrue] at hfalse
    exact Bool.noConfusion hfalse

/-- Witness for C8: the "Avatar" query builds the search-mode URL
ending in its percent-encoding. -/
theorem movieEndpoint_modes_w :
    movieEndpoint "Avatar" =
      TMDB_BASE_URL ++ "/search/movie?query=" ++ encodeURIComponent "Avatar" :=
  (movieEndpoint_modes.1 "Avatar" (by decide)).1
